import Mathlib

/-!
Shallow embedding of `src/server/src/modules/audio-analysis/audio_emotion_analyzer.py`.

The Python worker reads one JSON command per stdin line, dispatches to
`initialize` (action `init`) or `analyze_audio` (action `analyze`), and writes
one JSON response per line.  External collaborators (the `json` parser, the
filesystem, `tf.keras` model construction/loading, and the `librosa` feature
pipeline) are modelled as an abstract environment `Env` of oracle functions;
everything the repository's own code does with their results is translated
directly.  Python floats are modelled as rationals (`ℚ`), exceptions as
`Except String`, and Python dicts (insertion-ordered, unique keys, last write
wins) as association lists manipulated by `dictInsert`/`dictGet`.

Per the spec's data model, `emotionLabels` is an ordered sequence of strings;
the conversion `asLabels` accepts exactly JSON arrays of strings and fails on
the other JSON shapes (whose Python values break `len()` during model
construction or key hashing during score assembly).
-/

/-- JSON values as produced by the external json parser. -/
inductive JsonVal where
  | null : JsonVal
  | bool : Bool → JsonVal
  | num : ℚ → JsonVal
  | str : String → JsonVal
  | arr : List JsonVal → JsonVal
  | obj : List (String × JsonVal) → JsonVal

/-- External classifier instance (tf.keras model): its forward pass maps a
feature vector to per-label probabilities, or raises (e.g. shape mismatch). -/
structure Model where
  predict : List ℚ → Except String (List ℚ)

/-- Raw output of the librosa pipeline inside `extract_features` (lines 84-94):
per-coefficient MFCC means and standard deviations and the three scalar
summaries.  With `n_mfcc=13` the two MFCC lists have length 13. -/
structure RawFeatures where
  mfccMean : List ℚ
  mfccStd : List ℚ
  centroid : ℚ
  zcr : ℚ
  energy : ℚ

/-- Environment of external collaborators: json parsing, the filesystem,
keras model loading and construction, and the librosa decode/compute stage
(parameterised by the configured sample rate; the 3-second window is fixed
inside the oracle). -/
structure Env where
  parseJson : String → Except String JsonVal
  fileExists : String → Bool
  loadModel : String → Except String Model
  mkDummy : JsonVal → List String → Model
  extractRaw : ℕ → JsonVal → Except String RawFeatures

/-- Mutable state of the `AudioEmotionAnalyzer` instance (lines 17-22). -/
structure Analyzer where
  model : Option Model
  emotion_labels : List String
  sample_rate : ℕ
  model_path : JsonVal
  model_type : JsonVal

/-- The `__init__` state: no model, empty label list, 48 kHz, `model_path =
None`, `model_type = 'fast'`. -/
def Analyzer.initState : Analyzer :=
  { model := none
    emotion_labels := []
    sample_rate := 48000
    model_path := JsonVal.null
    model_type := JsonVal.str "fast" }

/-- Lookup of a key in a JSON object's field list (Python dict lookup). -/
def lookupField (fields : List (String × JsonVal)) (k : String) : Option JsonVal :=
  match fields with
  | [] => none
  | (k', v) :: rest => if k' = k then some v else lookupField rest k

/-- Python `dict.get(key, default)` on a JSON object's fields. -/
def jget (fields : List (String × JsonVal)) (k : String) (d : JsonVal) : JsonVal :=
  (lookupField fields k).getD d

/-- The default label list of `initialize` (lines 28-30). -/
def defaultLabels : List String :=
  ["neutral", "calm", "happy", "sad", "angry", "fearful", "disgust", "surprised"]

/-- Conversion of a JSON value to a usable label list.  Per the spec's data
model the configured labels are an ordered sequence of strings; any other JSON
shape is rejected (its Python value breaks `len()` in `create_dummy_model` or
dict-key handling in `predict_emotion`). -/
def asLabels : JsonVal → Except String (List String)
  | JsonVal.arr xs =>
    xs.foldr
      (fun x acc =>
        match x, acc with
        | JsonVal.str s, Except.ok ls => Except.ok (s :: ls)
        | _, _ => Except.error "TypeError: labels must be strings")
      (Except.ok [])
  | _ => Except.error "TypeError: object of this type has no len()"

/-- Rendering of a JSON value into Python str-formatting output, used by
f-strings such as the unknown-action message and the model file name. -/
def fmtJ : JsonVal → String
  | JsonVal.null => "None"
  | JsonVal.bool b => if b then "True" else "False"
  | JsonVal.num q => toString q
  | JsonVal.str s => s
  | JsonVal.arr _ => "[...]"
  | JsonVal.obj _ => "{...}"

/-- Python equality of a JSON value with a string literal (`action == 'init'`):
true exactly when the value is that string. -/
def isStr (j : JsonVal) (s : String) : Bool :=
  match j with
  | JsonVal.str t => t = s
  | _ => false

/-- Python dict assignment `d[k] = v`: replaces the value in place when the
key is present (keeping its position), appends a new entry otherwise. -/
def dictInsert (d : List (String × ℚ)) (k : String) (v : ℚ) : List (String × ℚ) :=
  if k ∈ d.map Prod.fst then
    d.map (fun p => if p.1 = k then (k, v) else p)
  else
    d ++ [(k, v)]

/-- Python dict read `d[k]`: the value of the (unique) entry with key `k`. -/
def dictGet (d : List (String × ℚ)) (k : String) : Option ℚ :=
  match d with
  | [] => none
  | (k', v) :: rest => if k' = k then some v else dictGet rest k

/-- The scores-building loop of `predict_emotion` (lines 139-141):
`for i, label in enumerate(labels): scores[label] = float(probabilities[i])`,
raising IndexError when `probabilities` has fewer entries than `labels`
(walking both lists in step is the same as indexing the i-th probability). -/
def buildScoresAux (d : List (String × ℚ)) :
    List String → List ℚ → Except String (List (String × ℚ))
  | [], _ => Except.ok d
  | _ :: _, [] => Except.error "IndexError: index out of bounds"
  | l :: ls, v :: vs => buildScoresAux (dictInsert d l v) ls vs

/-- `np.argmax`: index and value of the first maximal element; `np.argmax`
raises on an empty array, modelled as `none`. -/
def argmaxIdx : List ℚ → Option (ℕ × ℚ)
  | [] => none
  | x :: xs =>
    match argmaxIdx xs with
    | none => some (0, x)
    | some (j, m) => if m > x then some (j + 1, m) else some (0, x)

/-- Result record of `predict_emotion` (lines 148-152). -/
structure PredictionResult where
  emotion : String
  confidence : ℚ
  scores : List (String × ℚ)

/-- The `try` body of `predict_emotion` (lines 130-152): run the model on the
feature vector, build the per-label scores dict, take the argmax of the
probabilities as the dominant emotion and its probability as the confidence.
Any step may raise (model unset or failing, too few probabilities, empty
probability array, dominant index beyond the label list). -/
def predictTry (labels : List String) (run : Except String (List ℚ)) :
    Except String PredictionResult :=
  match run with
  | Except.error e => Except.error e
  | Except.ok probs =>
    match buildScoresAux [] labels probs with
    | Except.error e => Except.error e
    | Except.ok scores =>
      match argmaxIdx probs with
      | none => Except.error "ValueError: attempt to get argmax of an empty sequence"
      | some (j, m) =>
        match labels.get? j with
        | none => Except.error "IndexError: label index out of range"
        | some em => Except.ok { emotion := em, confidence := m, scores := scores }

/-- The `except` branch of `predict_emotion` (lines 154-164): zero score for
every configured label, then `scores['neutral'] = 1.0`, emotion `neutral`,
confidence 1. -/
def fallbackPrediction (labels : List String) : PredictionResult :=
  let scores := labels.foldl (fun d l => dictInsert d l 0) []
  { emotion := "neutral", confidence := 1, scores := dictInsert scores "neutral" 1 }

/-- `predict_emotion` (lines 128-164): the try body with the neutral fallback
on any exception.  `run` is the outcome of `self.model.predict(...)` on the
reshaped feature vector. -/
def predict_emotion (labels : List String) (run : Except String (List ℚ)) :
    PredictionResult :=
  match predictTry labels run with
  | Except.ok p => p
  | Except.error _ => fallbackPrediction labels

/-- Record returned by `extract_features` (lines 109-115 / 120-126). -/
structure FeatRecord where
  features : List ℚ
  mfcc : List ℚ
  spectralCentroid : ℚ
  zeroCrossingRate : ℚ
  energy : ℚ

/-- The zero result of the `except` branch of `extract_features`
(lines 120-126). -/
def zeroFeatures : FeatRecord :=
  { features := List.replicate 40 0
    mfcc := List.replicate 13 0
    spectralCentroid := 0
    zeroCrossingRate := 0
    energy := 0 }

/-- `extract_features` (lines 80-126): run the librosa pipeline, concatenate
[MFCC means, MFCC std-devs, centroid, zero-crossing rate, energy], pad with
trailing zeros to 40 or truncate to the first 40, and package the record; any
failure of the external pipeline yields the zero record instead. -/
def extract_features (env : Env) (st : Analyzer) (audioPath : JsonVal) : FeatRecord :=
  match env.extractRaw st.sample_rate audioPath with
  | Except.error _ => zeroFeatures
  | Except.ok raw =>
    let feats := raw.mfccMean ++ raw.mfccStd ++ [raw.centroid, raw.zcr, raw.energy]
    let feats40 :=
      if feats.length < 40 then feats ++ List.replicate (40 - feats.length) 0
      else feats.take 40
    { features := feats40
      mfcc := raw.mfccMean
      spectralCentroid := raw.centroid
      zeroCrossingRate := raw.zcr
      energy := raw.energy }

/-- The model invocation `self.model.predict(features_array)` inside
`predict_emotion`: raises AttributeError when no model has been set
(`self.model is None`), otherwise runs the model's forward pass. -/
def runModel (st : Analyzer) (feats : List ℚ) : Except String (List ℚ) :=
  match st.model with
  | none => Except.error "AttributeError: NoneType object has no attribute predict"
  | some m => m.predict feats

/-- The result dict built by `analyze_audio` (lines 176-190); the nested
`features` sub-dict is flattened into the four mfcc/centroid/zcr/energy
fields.  `voiceActivity` is the strict comparison `energy > 0.01` and
`duration` the constant 1.0. -/
structure AnalysisResult where
  sessionId : JsonVal
  timestamp : JsonVal
  emotion : String
  confidence : ℚ
  scores : List (String × ℚ)
  mfcc : List ℚ
  spectralCentroid : ℚ
  zeroCrossingRate : ℚ
  energy : ℚ
  voiceActivity : Bool
  duration : ℚ

/-- `analyze_audio` (lines 166-200): extract features, predict, assemble the
result.  Every component absorbs its own failures (extraction returns the zero
record, prediction returns the neutral fallback), so the outer `except` branch
returning the degraded `{sessionId, timestamp, error}` dict is unreachable in
the model and the full result shape is always produced. -/
def analyze_audio (env : Env) (st : Analyzer) (audioPath sessionId timestamp : JsonVal) :
    AnalysisResult :=
  let features := extract_features env st audioPath
  let er := predict_emotion st.emotion_labels (runModel st features.features)
  { sessionId := sessionId
    timestamp := timestamp
    emotion := er.emotion
    confidence := er.confidence
    scores := er.scores
    mfcc := features.mfcc
    spectralCentroid := features.spectralCentroid
    zeroCrossingRate := features.zeroCrossingRate
    energy := features.energy
    voiceActivity := decide (features.energy > mkRat 1 100)
    duration := 1 }

/-- Serialization of an `AnalysisResult` back into the JSON dict of
lines 176-190 (field order as in the source). -/
def resultToJson (r : AnalysisResult) : JsonVal :=
  JsonVal.obj
    [("sessionId", r.sessionId),
     ("timestamp", r.timestamp),
     ("emotion", JsonVal.str r.emotion),
     ("confidence", JsonVal.num r.confidence),
     ("scores", JsonVal.obj (r.scores.map (fun p => (p.1, JsonVal.num p.2)))),
     ("features", JsonVal.obj
        [("mfcc", JsonVal.arr (r.mfcc.map JsonVal.num)),
         ("spectralCentroid", JsonVal.num r.spectralCentroid),
         ("zeroCrossingRate", JsonVal.num r.zeroCrossingRate),
         ("energy", JsonVal.num r.energy)]),
     ("voiceActivity", JsonVal.bool r.voiceActivity),
     ("duration", JsonVal.num r.duration)]

/-- `create_dummy_model` (lines 50-78): builds an untrained keras model sized
to the configured label cardinality (the keras construction itself is the
`mkDummy` oracle and does not raise) and installs it. -/
def create_dummy_model (env : Env) (st : Analyzer) : Analyzer :=
  { st with model := some (env.mkDummy st.model_type st.emotion_labels) }

/-- `load_model` (lines 35-48): compute the artifact path, load it when it
exists (falling back to the dummy model on a load failure), otherwise create
the dummy model.  `Path(self.model_path)` raises TypeError when the stored
model path is not a string. -/
def load_model (env : Env) (st : Analyzer) : Analyzer × Option String :=
  match st.model_path with
  | JsonVal.str mp =>
    let file := mp ++ "/" ++ fmtJ st.model_type ++ "_model.h5"
    if env.fileExists file then
      match env.loadModel file with
      | Except.ok m => ({ st with model := some m }, none)
      | Except.error _ => (create_dummy_model env st, none)
    else
      (create_dummy_model env st, none)
  | _ => (st, some "TypeError: argument should be a str or an os.PathLike object")

/-- The `initialize` method (lines 24-33), named `doInit` here: read
`modelPath`, `modelType` and `emotionLabels` from the config with their
defaults (raising AttributeError when the config payload is not a JSON
object), store them, then `load_model`.  The second component is the raised
exception, if any; assignments made before the raise persist. -/
def doInit (env : Env) (st : Analyzer) (config : JsonVal) : Analyzer × Option String :=
  match config with
  | JsonVal.obj fields =>
    let mp := jget fields "modelPath" (JsonVal.str "./models/audio-emotion")
    let mt := jget fields "modelType" (JsonVal.str "fast")
    let elv := jget fields "emotionLabels" (JsonVal.arr (defaultLabels.map JsonVal.str))
    let st1 := { st with model_path := mp, model_type := mt }
    match asLabels elv with
    | Except.error e => (st1, some e)
    | Except.ok labels => load_model env { st1 with emotion_labels := labels }
  | _ => (st, some "AttributeError: object has no attribute get")

/-- The `try` body of one iteration of the protocol loop (lines 211-231):
parse the stripped line, read the `action` field (AttributeError on a
non-object request, Python `None` — modelled `JsonVal.null` — when absent) and
dispatch to init, analyze or the unknown-action response.  The second
component is the analyzer state after the iteration. -/
def tryProcess (env : Env) (st : Analyzer) (line : String) :
    Except String JsonVal × Analyzer :=
  match env.parseJson line.trim with
  | Except.error e => (Except.error e, st)
  | Except.ok req =>
    match req with
    | JsonVal.obj fields =>
      let action := (lookupField fields "action").getD JsonVal.null
      if isStr action "init" then
        match lookupField fields "config" with
        | none => (Except.error "KeyError: config", st)
        | some cfg =>
          match doInit env st cfg with
          | (st', none) => (Except.ok (JsonVal.obj [("status", JsonVal.str "initialized")]), st')
          | (st', some e) => (Except.error e, st')
      else if isStr action "analyze" then
        match lookupField fields "audioPath" with
        | none => (Except.error "KeyError: audioPath", st)
        | some ap =>
          match lookupField fields "sessionId" with
          | none => (Except.error "KeyError: sessionId", st)
          | some sid =>
            match lookupField fields "timestamp" with
            | none => (Except.error "KeyError: timestamp", st)
            | some ts =>
              let r := analyze_audio env st ap sid ts
              (Except.ok (JsonVal.obj
                [("result", resultToJson r), ("sessionId", sid), ("timestamp", ts)]), st)
      else
        (Except.ok (JsonVal.obj
          [("error", JsonVal.str ("Unknown action: " ++ fmtJ action))]), st)
    | _ => (Except.error "AttributeError: object has no attribute get", st)

/-- One iteration of the protocol loop including its `except` handler
(lines 233-236): any exception becomes an `{error: <message>}` response and
the loop state carries whatever assignments happened before the raise. -/
def processLine (env : Env) (st : Analyzer) (line : String) : JsonVal × Analyzer :=
  match tryProcess env st line with
  | (Except.ok r, st') => (r, st')
  | (Except.error e, st') => (JsonVal.obj [("error", JsonVal.str e)], st')

/-- The `for line in sys.stdin` loop of `main` (lines 210-236): process each
input line in order, emitting one response per line and threading the
analyzer state. -/
def runLoop (env : Env) (st : Analyzer) : List String → List JsonVal × Analyzer
  | [] => ([], st)
  | l :: ls =>
    let p := processLine env st l
    let rest := runLoop env p.2 ls
    (p.1 :: rest.1, rest.2)

/-! ### Specification-side definitions used to state the claims -/

/-- First entry of maximal value in a scores mapping: the claim language's
"argmax with ties broken by the lowest index". -/
def firstArgmax : List (String × ℚ) → Option (String × ℚ)
  | [] => none
  | p :: ps =>
    match firstArgmax ps with
    | none => some p
    | some q => if q.2 > p.2 then some q else some p

/-! ### Helper lemmas -/

theorem argmaxIdx_get {xs : List ℚ} {j : ℕ} {m : ℚ}
    (h : argmaxIdx xs = some (j, m)) : xs.get? j = some m := by
  induction xs generalizing j m with
  | nil => simp [argmaxIdx] at h
  | cons x xs ih =>
    rw [argmaxIdx] at h
    cases hx : argmaxIdx xs with
    | none =>
      rw [hx] at h; simp at h
      obtain ⟨rfl, rfl⟩ := h
      simp
    | some jm =>
      obtain ⟨j', m'⟩ := jm
      rw [hx] at h
      by_cases hgt : m' > x
      · simp [hgt] at h
        obtain ⟨rfl, rfl⟩ := h
        simpa using ih hx
      · simp [hgt] at h
        obtain ⟨rfl, rfl⟩ := h
        simp

theorem argmaxIdx_le {xs : List ℚ} {j : ℕ} {m : ℚ}
    (h : argmaxIdx xs = some (j, m)) :
    ∀ k v, xs.get? k = some v → v ≤ m := by
  induction xs generalizing j m with
  | nil => simp [argmaxIdx] at h
  | cons x xs ih =>
    rw [argmaxIdx] at h
    cases hx : argmaxIdx xs with
    | none =>
      rw [hx] at h; simp at h
      obtain ⟨-, rfl⟩ := h
      have hnil : xs = [] := by
        cases xs with
        | nil => rfl
        | cons y ys =>
          rw [argmaxIdx] at hx
          cases hy : argmaxIdx ys <;> rw [hy] at hx <;> simp at hx
          split at hx <;> simp at hx
      subst hnil
      intro k v hk
      cases k with
      | zero => simp at hk; simp [hk]
      | succ k => simp at hk
    | some jm =>
      obtain ⟨j', m'⟩ := jm
      rw [hx] at h
      by_cases hgt : m' > x
      · simp [hgt] at h
        obtain ⟨-, rfl⟩ := h
        intro k v hk
        cases k with
        | zero => simp at hk; subst hk; exact le_of_lt hgt
        | succ k => exact ih hx k v (by simpa using hk)
      · simp [hgt] at h
        obtain ⟨-, rfl⟩ := h
        push_neg at hgt
        intro k v hk
        cases k with
        | zero => simp at hk; simp [hk]
        | succ k => exact le_trans (ih hx k v (by simpa using hk)) hgt

theorem argmaxIdx_lt {xs : List ℚ} {j : ℕ} {m : ℚ}
    (h : argmaxIdx xs = some (j, m)) :
    ∀ k v, k < j → xs.get? k = some v → v < m := by
  induction xs generalizing j m with
  | nil => simp [argmaxIdx] at h
  | cons x xs ih =>
    rw [argmaxIdx] at h
    cases hx : argmaxIdx xs with
    | none =>
      rw [hx] at h; simp at h
      obtain ⟨rfl, -⟩ := h
      intro k v hk
      omega
    | some jm =>
      obtain ⟨j', m'⟩ := jm
      rw [hx] at h
      by_cases hgt : m' > x
      · simp [hgt] at h
        obtain ⟨rfl, rfl⟩ := h
        intro k v hk hv
        cases k with
        | zero => simp at hv; subst hv; exact hgt
        | succ k => exact ih hx k v (by omega) (by simpa using hv)
      · simp [hgt] at h
        obtain ⟨rfl, -⟩ := h
        intro k v hk
        omega

theorem firstArgmax_mem {s : List (String × ℚ)} {q : String × ℚ}
    (h : firstArgmax s = some q) : q ∈ s := by
  induction s with
  | nil => simp [firstArgmax] at h
  | cons p ps ih =>
    rw [firstArgmax] at h
    cases hx : firstArgmax ps with
    | none => rw [hx] at h; simp at h; simp [h]
    | some q' =>
      rw [hx] at h
      by_cases hgt : q'.2 > p.2
      · simp [hgt] at h
        subst h
        exact List.mem_cons_of_mem _ (ih hx)
      · simp [hgt] at h
        simp [h]

theorem firstArgmax_of_spec {s : List (String × ℚ)} {j : ℕ} {em : String} {m : ℚ}
    (hj : s.get? j = some (em, m))
    (hlt : ∀ k q, k < j → s.get? k = some q → q.2 < m)
    (hle : ∀ k q, s.get? k = some q → q.2 ≤ m) :
    firstArgmax s = some (em, m) := by
  induction s generalizing j with
  | nil => simp at hj
  | cons p ps ih =>
    cases j with
    | zero =>
      simp at hj
      subst hj
      rw [firstArgmax]
      cases hx : firstArgmax ps with
      | none => rfl
      | some q =>
        have hq : q ∈ ps := firstArgmax_mem hx
        obtain ⟨k, hk⟩ := List.mem_iff_get?.mp hq
        have := hle (k + 1) q (by simpa using hk)
        simp [not_lt_of_le this]
    | succ j =>
      have hp : p.2 < m := by
        have := hlt 0 p (Nat.succ_pos j) (by simp)
        exact this
      have hps : firstArgmax ps = some (em, m) := by
        apply ih (j := j) (by simpa using hj)
        · intro k q hk hq
          exact hlt (k + 1) q (by omega) (by simpa using hq)
        · intro k q hq
          exact hle (k + 1) q (by simpa using hq)
      rw [firstArgmax, hps]
      simp [hp]

theorem dictInsert_notMem {d : List (String × ℚ)} {k : String} (v : ℚ)
    (h : k ∉ d.map Prod.fst) : dictInsert d k v = d ++ [(k, v)] := by
  simp [dictInsert, h]

theorem dictInsert_length (d : List (String × ℚ)) (k : String) (v : ℚ) :
    (dictInsert d k v).length =
      if k ∈ d.map Prod.fst then d.length else d.length + 1 := by
  by_cases h : k ∈ d.map Prod.fst <;> simp [dictInsert, h]


theorem dictGet_cons (p : String × ℚ) (rest : List (String × ℚ)) (k : String) :
    dictGet (p :: rest) k = if p.1 = k then some p.2 else dictGet rest k := rfl

theorem dictGet_map_replace_self {d : List (String × ℚ)} {k : String} (v : ℚ)
    (h : k ∈ d.map Prod.fst) :
    dictGet (d.map (fun p => if p.1 = k then (k, v) else p)) k = some v := by
  induction d with
  | nil => simp at h
  | cons p rest ih =>
    rw [List.map_cons, List.mem_cons] at h
    by_cases hp : p.1 = k
    · rw [List.map_cons, if_pos hp, dictGet_cons, if_pos rfl]
    · have hk : k ∈ rest.map Prod.fst := by
        rcases h with h | h
        · exact absurd h.symm hp
        · exact h
      rw [List.map_cons, if_neg hp, dictGet_cons, if_neg hp]
      exact ih hk

theorem dictGet_append_single {d : List (String × ℚ)} {k : String} {v : ℚ}
    (h : k ∉ d.map Prod.fst) : dictGet (d ++ [(k, v)]) k = some v := by
  induction d with
  | nil => rw [List.nil_append, dictGet_cons, if_pos rfl]
  | cons p rest ih =>
    rw [List.map_cons, List.mem_cons] at h
    push_neg at h
    rw [List.cons_append, dictGet_cons, if_neg (fun hh => h.1 hh.symm)]
    exact ih h.2

theorem dictGet_dictInsert_self (d : List (String × ℚ)) (k : String) (v : ℚ) :
    dictGet (dictInsert d k v) k = some v := by
  unfold dictInsert
  by_cases h : k ∈ d.map Prod.fst
  · rw [if_pos h]
    exact dictGet_map_replace_self v h
  · rw [if_neg h]
    exact dictGet_append_single h

theorem dictGet_map_replace_ne {d : List (String × ℚ)} {k k' : String} (v : ℚ)
    (h : k' ≠ k) :
    dictGet (d.map (fun p => if p.1 = k then (k, v) else p)) k' = dictGet d k' := by
  induction d with
  | nil => rfl
  | cons p rest ih =>
    by_cases hp : p.1 = k
    · rw [List.map_cons, if_pos hp, dictGet_cons, dictGet_cons,
        if_neg (show ((k, v) : String × ℚ).1 ≠ k' from fun hh => h hh.symm),
        if_neg (show p.1 ≠ k' from hp ▸ fun hh => h hh.symm)]
      exact ih
    · rw [List.map_cons, if_neg hp, dictGet_cons, dictGet_cons]
      by_cases hpk : p.1 = k'
      · rw [if_pos hpk, if_pos hpk]
      · rw [if_neg hpk, if_neg hpk]
        exact ih

theorem dictGet_append_single_ne {d : List (String × ℚ)} {k k' : String} {v : ℚ}
    (h : k' ≠ k) : dictGet (d ++ [(k, v)]) k' = dictGet d k' := by
  induction d with
  | nil =>
    rw [List.nil_append, dictGet_cons,
      if_neg (show ((k, v) : String × ℚ).1 ≠ k' from fun hh => h hh.symm)]
  | cons p rest ih =>
    rw [List.cons_append, dictGet_cons, dictGet_cons]
    by_cases hpk : p.1 = k'
    · rw [if_pos hpk, if_pos hpk]
    · rw [if_neg hpk, if_neg hpk]
      exact ih

theorem dictGet_dictInsert_ne (d : List (String × ℚ)) (k k' : String) (v : ℚ)
    (h : k' ≠ k) : dictGet (dictInsert d k v) k' = dictGet d k' := by
  unfold dictInsert
  by_cases hm : k ∈ d.map Prod.fst
  · rw [if_pos hm]
    exact dictGet_map_replace_ne v h
  · rw [if_neg hm]
    exact dictGet_append_single_ne h

theorem buildScoresAux_ok {labels : List String} {probs : List ℚ}
    {d s : List (String × ℚ)}
    (hnd : labels.Nodup) (hdisj : ∀ l ∈ labels, l ∉ d.map Prod.fst)
    (h : buildScoresAux d labels probs = Except.ok s) :
    s = d ++ labels.zip probs := by
  induction labels generalizing probs d with
  | nil =>
    simp [buildScoresAux] at h
    simp [h.symm]
  | cons l ls ih =>
    cases probs with
    | nil => simp [buildScoresAux] at h
    | cons v vs =>
      rw [buildScoresAux] at h
      rw [dictInsert_notMem v (hdisj l (List.mem_cons_self l ls))] at h
      have hnd' := (List.nodup_cons.mp hnd).2
      have hne := (List.nodup_cons.mp hnd).1
      have hstep := ih hnd' (d := d ++ [(l, v)]) ?_ h
      · rw [hstep]
        simp [List.zip_cons_cons]
      · intro x hx
        rw [List.map_append, List.mem_append]
        rintro (hxd | hxl)
        · exact hdisj x (List.mem_cons_of_mem _ hx) hxd
        · simp at hxl
          exact hne (hxl ▸ hx)

theorem buildScoresAux_le {labels : List String} {probs : List ℚ}
    {d s : List (String × ℚ)}
    (h : buildScoresAux d labels probs = Except.ok s) :
    labels.length ≤ probs.length := by
  induction labels generalizing probs d with
  | nil => simp
  | cons l ls ih =>
    cases probs with
    | nil => simp [buildScoresAux] at h
    | cons v vs =>
      rw [buildScoresAux] at h
      simpa using Nat.succ_le_succ (ih h)

theorem zip_get? {α β : Type} (l : List α) (p : List β) (k : ℕ) :
    (l.zip p).get? k =
      match l.get? k, p.get? k with
      | some a, some b => some (a, b)
      | _, _ => none := by
  induction l generalizing p k with
  | nil => simp
  | cons a as ih =>
    cases p with
    | nil => simp
    | cons b bs =>
      cases k with
      | zero => simp
      | succ k => simpa using ih bs k

theorem dictGet_of_get?_nodup {s : List (String × ℚ)} {j : ℕ} {k : String} {v : ℚ}
    (hnd : (s.map Prod.fst).Nodup) (hj : s.get? j = some (k, v)) :
    dictGet s k = some v := by
  induction s generalizing j with
  | nil => simp at hj
  | cons p rest ih =>
    rw [List.map_cons, List.nodup_cons] at hnd
    cases j with
    | zero =>
      have hp : p = (k, v) := by simpa using hj
      subst hp
      rw [dictGet_cons, if_pos rfl]
    | succ j =>
      have hj' : rest.get? j = some (k, v) := hj
      have hk : k ∈ rest.map Prod.fst := by
        have hmem : (k, v) ∈ rest := by
          rcases List.get?_eq_some.mp hj' with ⟨hlt, hget⟩
          exact hget ▸ List.get_mem rest j hlt
        exact List.mem_map.mpr ⟨(k, v), hmem, rfl⟩
      rw [dictGet_cons, if_neg (fun hh => hnd.1 (by rw [hh]; exact hk))]
      exact ih hnd.2 hj'

theorem foldl_dictInsert_zero {labels : List String} {d : List (String × ℚ)}
    (hnd : labels.Nodup) (hdisj : ∀ l ∈ labels, l ∉ d.map Prod.fst) :
    labels.foldl (fun d l => dictInsert d l 0) d =
      d ++ labels.map (fun l => (l, (0 : ℚ))) := by
  induction labels generalizing d with
  | nil => simp
  | cons l ls ih =>
    rw [List.foldl_cons, dictInsert_notMem 0 (hdisj l (List.mem_cons_self l ls))]
    have hnd' := (List.nodup_cons.mp hnd).2
    have hne := (List.nodup_cons.mp hnd).1
    rw [ih hnd' ?_]
    · simp
    · intro x hx
      rw [List.map_append, List.mem_append]
      rintro (hxd | hxl)
      · exact hdisj x (List.mem_cons_of_mem _ hx) hxd
      · simp at hxl
        exact hne (hxl ▸ hx)

theorem keys_map_pair (labels : List String) :
    (labels.map (fun l => (l, (0 : ℚ)))).map Prod.fst = labels := by
  rw [List.map_map]
  exact List.map_id labels

theorem fallbackPrediction_scores (labels : List String) (hnd : labels.Nodup) :
    (fallbackPrediction labels).scores =
      if "neutral" ∈ labels then
        labels.map (fun l => if l = "neutral" then ("neutral", (1 : ℚ)) else (l, 0))
      else labels.map (fun l => (l, (0 : ℚ))) ++ [("neutral", 1)] := by
  show dictInsert (labels.foldl (fun d l => dictInsert d l 0) []) "neutral" 1 = _
  rw [foldl_dictInsert_zero hnd (by simp), List.nil_append]
  unfold dictInsert
  rw [keys_map_pair]
  by_cases h : "neutral" ∈ labels
  · rw [if_pos h, if_pos h, List.map_map]
    rfl
  · rw [if_neg h, if_neg h]

theorem firstArgmax_append_zeros {xs : List (String × ℚ)}
    (h : ∀ p ∈ xs, p.2 = (0 : ℚ)) :
    firstArgmax (xs ++ [("neutral", (1 : ℚ))]) = some ("neutral", 1) := by
  induction xs with
  | nil => rfl
  | cons x rest ih =>
    rw [List.cons_append, firstArgmax, ih (fun p hp => h p (List.mem_cons_of_mem _ hp))]
    rw [show x.2 = (0 : ℚ) from h x (List.mem_cons_self x rest)]
    norm_num

theorem firstArgmax_inplace {labels : List String} (h : "neutral" ∈ labels) :
    firstArgmax (labels.map
      (fun l => if l = "neutral" then ("neutral", (1 : ℚ)) else (l, 0))) =
      some ("neutral", 1) := by
  induction labels with
  | nil => simp at h
  | cons l ls ih =>
    by_cases hl : l = "neutral"
    · subst hl
      rw [List.map_cons, if_pos rfl, firstArgmax]
      cases hx : firstArgmax (ls.map
          (fun l => if l = "neutral" then ("neutral", (1 : ℚ)) else (l, 0))) with
      | none => rfl
      | some q =>
        have hq := firstArgmax_mem hx
        rcases List.mem_map.mp hq with ⟨l', -, hline⟩
        have hq2 : q.2 ≤ 1 := by
          by_cases hl' : l' = "neutral"
          · rw [hl', if_pos rfl] at hline
            rw [← hline]
          · rw [if_neg hl'] at hline
            rw [← hline]
            norm_num
        show (if q.2 > (1 : ℚ) then some q else some ("neutral", 1)) = some ("neutral", 1)
        rw [if_neg (not_lt_of_le hq2)]
    · have hmem : "neutral" ∈ ls := by
        rcases List.mem_cons.mp h with hh | hh
        · exact absurd hh.symm hl
        · exact hh
      rw [List.map_cons, if_neg hl, firstArgmax, ih hmem]
      norm_num

theorem keys_inplace (labels : List String) :
    ((labels.map
      (fun l => if l = "neutral" then ("neutral", (1 : ℚ)) else (l, 0))).map
        Prod.fst) = labels := by
  induction labels with
  | nil => rfl
  | cons l ls ih =>
    by_cases hl : l = "neutral"
    · subst hl
      simp [ih]
    · simp [hl, ih]

theorem processLine_snd (env : Env) (st : Analyzer) (line : String) :
    (processLine env st line).2 = (tryProcess env st line).2 := by
  unfold processLine
  rcases tryProcess env st line with ⟨r, st'⟩
  cases r <;> rfl

/-! ### Claims -/

/-- C1: for every sequence of input lines the protocol loop writes exactly one
response per input line; a line whose processing raises is answered with an
`error` object and every subsequent line is still processed (the loop is a
total function on the remaining lines, from the state the failing line left
behind). -/
theorem claim_C1 (env : Env) (st : Analyzer) (lines : List String) :
    (runLoop env st lines).1.length = lines.length ∧
    (∀ (st0 : Analyzer) (l : String) (rest : List String) (e : String),
      (tryProcess env st0 l).1 = Except.error e →
      (runLoop env st0 (l :: rest)).1 =
        JsonVal.obj [("error", JsonVal.str e)] ::
          (runLoop env (processLine env st0 l).2 rest).1) := by
  constructor
  · induction lines generalizing st with
    | nil => rfl
    | cons l ls ih =>
      simpa [runLoop] using ih (processLine env st l).2
  · intro st0 l rest e he
    have hpl : (processLine env st0 l).1 = JsonVal.obj [("error", JsonVal.str e)] := by
      unfold processLine
      rcases htp : tryProcess env st0 l with ⟨r, st'⟩
      rw [htp] at he
      simp only at he
      subst he
      rfl
    simp only [runLoop]
    rw [hpl]

/-- C2: for every audioPath, `extract_features` returns a record whose
`features` list has length exactly 40; on success (under the librosa contract
that `n_mfcc=13` yields 13 MFCC means and 13 standard deviations) the list is
the concatenation of the 29 raw values — 13 means, 13 standard deviations,
centroid, zero-crossing rate, energy — padded with trailing zeros to exactly
40 (the truncation branch covers longer lists); on any decode or computation
failure the result is the defined zero record, and no exception propagates
(the function is total). -/
theorem claim_C2 (env : Env) (st : Analyzer) (ap : JsonVal) :
    (extract_features env st ap).features.length = 40 ∧
    (∀ raw, env.extractRaw st.sample_rate ap = Except.ok raw →
      raw.mfccMean.length = 13 → raw.mfccStd.length = 13 →
      extract_features env st ap =
        { features := (raw.mfccMean ++ raw.mfccStd ++
            [raw.centroid, raw.zcr, raw.energy]) ++ List.replicate 11 0
          mfcc := raw.mfccMean
          spectralCentroid := raw.centroid
          zeroCrossingRate := raw.zcr
          energy := raw.energy }) ∧
    (∀ e, env.extractRaw st.sample_rate ap = Except.error e →
      extract_features env st ap = zeroFeatures) := by
  refine ⟨?_, ?_, ?_⟩
  · cases hex : env.extractRaw st.sample_rate ap with
    | error e => simp [extract_features, hex, zeroFeatures]
    | ok raw =>
      simp only [extract_features, hex]
      split
      · rw [List.length_append, List.length_replicate]
        omega
      · rename_i hnlt
        rw [List.length_take]
        omega
  · intro raw hex h1 h2
    simp only [extract_features, hex]
    have hlen : (raw.mfccMean ++ raw.mfccStd ++
        [raw.centroid, raw.zcr, raw.energy]).length = 29 := by
      simp [h1, h2]
    rw [if_pos (by rw [hlen]; norm_num), hlen]
  · intro e hex
    simp [extract_features, hex]

/-- C9: an `analyze` request processed before any `init` command still yields
a full (non-degraded) result: the unset model makes the prediction step raise,
and the fallback over the empty initial label list produces emotion `neutral`,
confidence 1, and the single-entry scores mapping. -/
theorem claim_C9 (env : Env) (ap sid ts : JsonVal) :
    (analyze_audio env Analyzer.initState ap sid ts).emotion = "neutral" ∧
    (analyze_audio env Analyzer.initState ap sid ts).confidence = 1 ∧
    (analyze_audio env Analyzer.initState ap sid ts).scores = [("neutral", 1)] :=
  ⟨rfl, rfl, rfl⟩

/-- Model stub used by the concrete test environments: a classifier whose
forward pass always raises. -/
def stubModel : Model :=
  { predict := fun _ => Except.error "shape mismatch" }

/-- Raw librosa output with a prescribed energy and zero everything else. -/
def rawWithEnergy (e : ℚ) : RawFeatures :=
  { mfccMean := List.replicate 13 0
    mfccStd := List.replicate 13 0
    centroid := 0
    zcr := 0
    energy := e }

/-- Concrete environment whose feature pipeline reports a prescribed energy. -/
def envEnergy (e : ℚ) : Env :=
  { parseJson := fun _ => Except.error "Expecting value"
    fileExists := fun _ => false
    loadModel := fun _ => Except.error "unreadable artifact"
    mkDummy := fun _ _ => stubModel
    extractRaw := fun _ _ => Except.ok (rawWithEnergy e) }

/-- C8: every result's `voiceActivity` is the strict comparison of the
computed energy against the fixed threshold 0.01; in particular an energy of
exactly 0.01 yields `voiceActivity = false` and an energy of 0.0100001 yields
`voiceActivity = true`. -/
theorem claim_C8 :
    (∀ (env : Env) (st : Analyzer) (ap sid ts : JsonVal),
      (analyze_audio env st ap sid ts).voiceActivity =
        decide ((extract_features env st ap).energy > mkRat 1 100)) ∧
    (mkRat 1 100 : ℚ) = 0.01 ∧
    (mkRat 100001 10000000 : ℚ) = 0.0100001 ∧
    (analyze_audio (envEnergy (mkRat 1 100)) Analyzer.initState
      JsonVal.null JsonVal.null JsonVal.null).energy = mkRat 1 100 ∧
    (analyze_audio (envEnergy (mkRat 1 100)) Analyzer.initState
      JsonVal.null JsonVal.null JsonVal.null).voiceActivity = false ∧
    (analyze_audio (envEnergy (mkRat 100001 10000000)) Analyzer.initState
      JsonVal.null JsonVal.null JsonVal.null).energy = mkRat 100001 10000000 ∧
    (analyze_audio (envEnergy (mkRat 100001 10000000)) Analyzer.initState
      JsonVal.null JsonVal.null JsonVal.null).voiceActivity = true := by
  refine ⟨fun env st ap sid ts => rfl, ?_, ?_, rfl, ?_, rfl, ?_⟩
  · rw [Rat.mkRat_eq_div]; norm_num
  · rw [Rat.mkRat_eq_div]; norm_num
  · decide
  · decide

/-- C7: an `analyze` request never mutates the analyzer state, so two
consecutive identical `analyze` requests against the same classifier and the
same audio file receive identical responses, and `analyze_audio` evaluated
after the first request equals `analyze_audio` evaluated before it. -/
theorem claim_C7 (env : Env) (st : Analyzer) (line : String)
    (reqFields : List (String × JsonVal))
    (hparse : env.parseJson line.trim = Except.ok (JsonVal.obj reqFields))
    (hact : lookupField reqFields "action" = some (JsonVal.str "analyze")) :
    (processLine env st line).2 = st ∧
    (runLoop env st [line, line]).1 =
      [(processLine env st line).1, (processLine env st line).1] ∧
    (∀ ap sid ts, analyze_audio env (processLine env st line).2 ap sid ts =
      analyze_audio env st ap sid ts) := by
  have hsp : (tryProcess env st line).2 = st := by
    unfold tryProcess
    rw [hparse]
    simp only [hact, Option.getD_some]
    cases h1 : lookupField reqFields "audioPath" with
    | none => rfl
    | some ap =>
      cases h2 : lookupField reqFields "sessionId" with
      | none => rfl
      | some sid =>
        cases h3 : lookupField reqFields "timestamp" with
        | none => rfl
        | some ts => rfl
  have hsp' : (processLine env st line).2 = st := by
    rw [processLine_snd, hsp]
  refine ⟨hsp', ?_, fun ap sid ts => by rw [hsp']⟩
  simp only [runLoop]
  rw [hsp']

/-- C10: an init config that omits `modelPath`, `modelType` or `emotionLabels`
does not make initialization fail; the defaults `./models/audio-emotion`,
`fast` and the eight-label list are substituted. -/
theorem claim_C10 (env : Env) (st : Analyzer) (fields : List (String × JsonVal))
    (h1 : lookupField fields "modelPath" = none)
    (h2 : lookupField fields "modelType" = none)
    (h3 : lookupField fields "emotionLabels" = none) :
    (doInit env st (JsonVal.obj fields)).2 = none ∧
    (doInit env st (JsonVal.obj fields)).1.model_path =
      JsonVal.str "./models/audio-emotion" ∧
    (doInit env st (JsonVal.obj fields)).1.model_type = JsonVal.str "fast" ∧
    (doInit env st (JsonVal.obj fields)).1.emotion_labels = defaultLabels := by
  unfold doInit
  simp only [jget, h1, h2, h3, Option.getD_none]
  rw [show asLabels (JsonVal.arr (defaultLabels.map JsonVal.str)) =
    Except.ok defaultLabels from rfl]
  unfold load_model
  simp only []
  cases hfe : env.fileExists ("./models/audio-emotion" ++ "/" ++
      fmtJ (JsonVal.str "fast") ++ "_model.h5") with
  | true =>
    cases hlm : env.loadModel ("./models/audio-emotion" ++ "/" ++
        fmtJ (JsonVal.str "fast") ++ "_model.h5") with
    | ok m => simp [hfe, hlm]
    | error e => simp [hfe, hlm, create_dummy_model]
  | false => simp [hfe, create_dummy_model]

theorem load_model_snd_of_str (env : Env) (st : Analyzer) (s : String)
    (h : st.model_path = JsonVal.str s) : (load_model env st).2 = none := by
  unfold load_model
  rw [h]
  simp only []
  split
  · split <;> rfl
  · rfl

/-- C5 (amended): for every config payload that is a JSON object whose
`modelPath`, when present, is a string and whose `emotionLabels`, when
present, is an array of strings, `initialize` returns without raising and the
protocol response to the init command is the `initialized` status object.
(The unamended claim fails for non-object config payloads, whose attribute
lookup raises.) -/
theorem claim_C5 (env : Env) (st : Analyzer) (line : String)
    (fields reqFields : List (String × JsonVal))
    (hmp : ∀ v, lookupField fields "modelPath" = some v → ∃ s, v = JsonVal.str s)
    (hel : ∀ v, lookupField fields "emotionLabels" = some v →
      ∃ ls, asLabels v = Except.ok ls)
    (hparse : env.parseJson line.trim = Except.ok (JsonVal.obj reqFields))
    (hact : lookupField reqFields "action" = some (JsonVal.str "init"))
    (hcfg : lookupField reqFields "config" = some (JsonVal.obj fields)) :
    (doInit env st (JsonVal.obj fields)).2 = none ∧
    (processLine env st line).1 =
      JsonVal.obj [("status", JsonVal.str "initialized")] := by
  have hmp' : ∃ s, (lookupField fields "modelPath").getD
      (JsonVal.str "./models/audio-emotion") = JsonVal.str s := by
    cases hv : lookupField fields "modelPath" with
    | none => exact ⟨_, rfl⟩
    | some v =>
      rcases hmp v hv with ⟨s, rfl⟩
      exact ⟨s, rfl⟩
  have hel' : ∃ ls, asLabels ((lookupField fields "emotionLabels").getD
      (JsonVal.arr (defaultLabels.map JsonVal.str))) = Except.ok ls := by
    cases hv : lookupField fields "emotionLabels" with
    | none => exact ⟨defaultLabels, rfl⟩
    | some v => exact hel v hv
  obtain ⟨s, hs⟩ := hmp'
  obtain ⟨ls, hls⟩ := hel'
  have hdi : (doInit env st (JsonVal.obj fields)).2 = none := by
    unfold doInit
    simp only [jget, hls]
    exact load_model_snd_of_str env _ s hs
  refine ⟨hdi, ?_⟩
  unfold processLine tryProcess
  rw [hparse]
  simp only [hact, Option.getD_some, hcfg, isStr]
  rcases hdi2 : doInit env st (JsonVal.obj fields) with ⟨st', err⟩
  rw [hdi2] at hdi
  simp only at hdi
  subst hdi
  simp

/-- Concrete environment whose every input line parses to an init command
carrying the non-object config payload 5. -/
def envBadConfig : Env :=
  { parseJson := fun _ => Except.ok (JsonVal.obj
      [("action", JsonVal.str "init"), ("config", JsonVal.num 5)])
    fileExists := fun _ => false
    loadModel := fun _ => Except.error "unreadable artifact"
    mkDummy := fun _ _ => stubModel
    extractRaw := fun _ _ => Except.error "decode failure" }

/-- C5 counterexample: with the config payload 5 (not a JSON object) the
attribute lookup in `initialize` raises, and the protocol response to that
init command is an error object, not the `initialized` status. -/
theorem claim_C5_counterexample :
    (doInit envBadConfig Analyzer.initState (JsonVal.num 5)).2 =
      some "AttributeError: object has no attribute get" ∧
    (processLine envBadConfig Analyzer.initState "line").1 =
      JsonVal.obj [("error",
        JsonVal.str "AttributeError: object has no attribute get")] ∧
    (processLine envBadConfig Analyzer.initState "line").1 ≠
      JsonVal.obj [("status", JsonVal.str "initialized")] := by
  refine ⟨rfl, rfl, ?_⟩
  intro h
  rw [show (processLine envBadConfig Analyzer.initState "line").1 =
    JsonVal.obj [("error",
      JsonVal.str "AttributeError: object has no attribute get")] from rfl] at h
  simp at h

theorem dictGet_foldl_zero {labels : List String} {d : List (String × ℚ)}
    {l : String} (h : l ∈ labels ∨ dictGet d l = some 0) :
    dictGet (labels.foldl (fun d l => dictInsert d l 0) d) l = some 0 := by
  induction labels generalizing d with
  | nil =>
    rcases h with h | h
    · simp at h
    · simpa using h
  | cons x xs ih =>
    rw [List.foldl_cons]
    apply ih
    rcases h with h | h
    · rcases List.mem_cons.mp h with rfl | hmem
      · right
        exact dictGet_dictInsert_self d l 0
      · left
        exact hmem
    · right
      by_cases hlx : l = x
      · subst hlx
        exact dictGet_dictInsert_self d l 0
      · rw [dictGet_dictInsert_ne d x l 0 hlx]
        exact h

theorem zip_get?_snd {l : List String} {p : List ℚ} {k : ℕ} {q : String × ℚ}
    (h : (l.zip p).get? k = some q) : p.get? k = some q.2 := by
  rw [zip_get?] at h
  cases hgk : l.get? k with
  | none => rw [hgk] at h; simp at h
  | some a =>
    cases hpk : p.get? k with
    | none => rw [hgk, hpk] at h; simp at h
    | some b =>
      rw [hgk, hpk] at h
      simp only [Option.some.injEq] at h
      subst h
      rfl

/-- C3 (amended): when the internal prediction step fails, `predict_emotion`
returns the safe result: emotion `neutral`, confidence 1, `neutral` scored 1
and every configured non-neutral label scored 0; the mapping's keys are
exactly the configured labels when `neutral` is among them, and the configured
labels followed by one extra `neutral` entry otherwise.  (The unamended
"exactly one entry per configured label" fails when `neutral` is not among the
configured labels.) -/
theorem claim_C3 (labels : List String) (e : String) (hnd : labels.Nodup) :
    (predict_emotion labels (Except.error e)).emotion = "neutral" ∧
    (predict_emotion labels (Except.error e)).confidence = 1 ∧
    dictGet (predict_emotion labels (Except.error e)).scores "neutral" =
      some 1 ∧
    (∀ l ∈ labels, l ≠ "neutral" →
      dictGet (predict_emotion labels (Except.error e)).scores l = some 0) ∧
    ((predict_emotion labels (Except.error e)).scores.map Prod.fst =
      if "neutral" ∈ labels then labels else labels ++ ["neutral"]) ∧
    ((predict_emotion labels (Except.error e)).scores.length =
      if "neutral" ∈ labels then labels.length else labels.length + 1) := by
  have hpe : predict_emotion labels (Except.error e) =
      fallbackPrediction labels := rfl
  rw [hpe]
  refine ⟨rfl, rfl, dictGet_dictInsert_self _ _ _, ?_, ?_, ?_⟩
  · intro l hl hln
    show dictGet (dictInsert
      (labels.foldl (fun d l => dictInsert d l 0) []) "neutral" 1) l = some 0
    rw [dictGet_dictInsert_ne _ _ _ _ hln]
    exact dictGet_foldl_zero (Or.inl hl)
  · rw [fallbackPrediction_scores labels hnd]
    by_cases hmem : "neutral" ∈ labels
    · rw [if_pos hmem, if_pos hmem]
      exact keys_inplace labels
    · rw [if_neg hmem, if_neg hmem, List.map_append, keys_map_pair]
      rfl
  · rw [fallbackPrediction_scores labels hnd]
    by_cases hmem : "neutral" ∈ labels
    · rw [if_pos hmem, if_pos hmem, List.length_map]
    · rw [if_neg hmem, if_neg hmem, List.length_append, List.length_map]
      rfl

/-- C4 (amended): with distinct configured labels (label count L) and
classifier output probabilities in [0,1] (the softmax interface contract),
every entry of the scores mapping returned by `predict_emotion` lies in
[0,1]; on the success path (the try body returns) the mapping has exactly L
entries, and on the failure path it has exactly L entries when `neutral` is
among the configured labels and exactly L+1 entries otherwise.  (The
unamended "exactly L entries on both paths" fails on the failure path
without a configured `neutral`.) -/
theorem claim_C4 (labels : List String) (run : Except String (List ℚ))
    (hnd : labels.Nodup)
    (hin : ∀ probs, run = Except.ok probs → ∀ x ∈ probs, 0 ≤ x ∧ x ≤ 1) :
    (∀ q ∈ (predict_emotion labels run).scores, 0 ≤ q.2 ∧ q.2 ≤ 1) ∧
    (∀ p, predictTry labels run = Except.ok p →
      (predict_emotion labels run).scores.length = labels.length) ∧
    (∀ e, predictTry labels run = Except.error e →
      (predict_emotion labels run).scores.length =
        if "neutral" ∈ labels then labels.length else labels.length + 1) := by
  have hok : ∀ p, predictTry labels run = Except.ok p →
      ∃ probs, run = Except.ok probs ∧ p.scores = labels.zip probs ∧
        labels.length ≤ probs.length := by
    intro p hpt
    cases run with
    | error e2 =>
      unfold predictTry at hpt
      simp at hpt
    | ok probs =>
      refine ⟨probs, rfl, ?_⟩
      unfold predictTry at hpt
      simp only [] at hpt
      cases hbs : buildScoresAux [] labels probs with
      | error e2 =>
        rw [hbs] at hpt
        simp at hpt
      | ok scores =>
        rw [hbs] at hpt
        simp only [] at hpt
        cases ham : argmaxIdx probs with
        | none =>
          rw [ham] at hpt
          simp at hpt
        | some jm =>
          obtain ⟨j, m⟩ := jm
          rw [ham] at hpt
          simp only [] at hpt
          cases hget : labels.get? j with
          | none =>
            rw [hget] at hpt
            simp at hpt
          | some em =>
            rw [hget] at hpt
            simp only [Except.ok.injEq] at hpt
            subst hpt
            exact ⟨buildScoresAux_ok hnd (by intro l hl; simp) hbs,
              buildScoresAux_le hbs⟩
  refine ⟨?_, ?_, ?_⟩
  · intro q hq
    cases hpt : predictTry labels run with
    | error e =>
      have hsc : (predict_emotion labels run).scores =
          (fallbackPrediction labels).scores := by
        unfold predict_emotion
        rw [hpt]
      rw [hsc, fallbackPrediction_scores labels hnd] at hq
      by_cases hmem : "neutral" ∈ labels
      · rw [if_pos hmem] at hq
        rcases List.mem_map.mp hq with ⟨l, -, hl⟩
        by_cases hln : l = "neutral"
        · rw [hln, if_pos rfl] at hl
          rw [← hl]
          norm_num
        · rw [if_neg hln] at hl
          rw [← hl]
          norm_num
      · rw [if_neg hmem] at hq
        rcases List.mem_append.mp hq with hq | hq
        · rcases List.mem_map.mp hq with ⟨l, -, hl⟩
          rw [← hl]
          norm_num
        · simp at hq
          subst hq
          norm_num
    | ok p =>
      obtain ⟨probs, hrun, hzip, -⟩ := hok p hpt
      have hsc : (predict_emotion labels run).scores = labels.zip probs := by
        unfold predict_emotion
        rw [hpt]
        exact hzip
      rw [hsc] at hq
      obtain ⟨a, b⟩ := q
      exact hin probs hrun b (List.of_mem_zip hq).2
  · intro p hpt
    obtain ⟨probs, -, hzip, hle⟩ := hok p hpt
    have hsc : (predict_emotion labels run).scores = labels.zip probs := by
      unfold predict_emotion
      rw [hpt]
      exact hzip
    rw [hsc, List.length_zip]
    omega
  · intro e hpt
    have hsc : (predict_emotion labels run).scores =
        (fallbackPrediction labels).scores := by
      unfold predict_emotion
      rw [hpt]
    rw [hsc, fallbackPrediction_scores labels hnd]
    by_cases hmem : "neutral" ∈ labels
    · rw [if_pos hmem, if_pos hmem, List.length_map]
    · rw [if_neg hmem, if_neg hmem, List.length_append, List.length_map]
      rfl

/-- C6: for distinct configured labels, every `PredictionResult` returned by
`predict_emotion` satisfies `confidence = scores[emotion]` and `emotion` is
the first-maximal entry of the scores mapping (argmax with ties broken by the
lowest index in the mapping order, which on the success path is the
configured label order), on both the success and the fallback path. -/
theorem claim_C6 (labels : List String) (run : Except String (List ℚ))
    (hnd : labels.Nodup) :
    dictGet (predict_emotion labels run).scores
        (predict_emotion labels run).emotion =
      some (predict_emotion labels run).confidence ∧
    firstArgmax (predict_emotion labels run).scores =
      some ((predict_emotion labels run).emotion,
        (predict_emotion labels run).confidence) := by
  unfold predict_emotion
  cases hpt : predictTry labels run with
  | error e =>
    refine ⟨dictGet_dictInsert_self _ _ _, ?_⟩
    rw [show (fallbackPrediction labels).scores = _ from
      fallbackPrediction_scores labels hnd]
    by_cases hmem : "neutral" ∈ labels
    · rw [if_pos hmem]
      exact firstArgmax_inplace hmem
    · rw [if_neg hmem]
      apply firstArgmax_append_zeros
      intro q hq
      rcases List.mem_map.mp hq with ⟨l, -, hl⟩
      rw [← hl]
  | ok p =>
    cases run with
    | error e2 =>
      unfold predictTry at hpt
      simp at hpt
    | ok probs =>
      unfold predictTry at hpt
      simp only [] at hpt
      cases hbs : buildScoresAux [] labels probs with
      | error e2 =>
        rw [hbs] at hpt
        simp at hpt
      | ok scores =>
        rw [hbs] at hpt
        simp only [] at hpt
        cases ham : argmaxIdx probs with
        | none =>
          rw [ham] at hpt
          simp at hpt
        | some jm =>
          obtain ⟨j, m⟩ := jm
          rw [ham] at hpt
          simp only [] at hpt
          cases hget : labels.get? j with
          | none =>
            rw [hget] at hpt
            simp at hpt
          | some em =>
            rw [hget] at hpt
            simp only [Except.ok.injEq] at hpt
            subst hpt
            have hzip : scores = labels.zip probs :=
              buildScoresAux_ok hnd (by intro l hl; simp) hbs
            have hle : labels.length ≤ probs.length := buildScoresAux_le hbs
            have hjm : probs.get? j = some m := argmaxIdx_get ham
            have hzj : (labels.zip probs).get? j = some (em, m) := by
              rw [zip_get?, hget, hjm]
            have hknd : ((labels.zip probs).map Prod.fst).Nodup := by
              rw [List.map_fst_zip labels probs hle]
              exact hnd
            constructor
            · show dictGet scores em = some m
              rw [hzip]
              exact dictGet_of_get?_nodup hknd hzj
            · show firstArgmax scores = some (em, m)
              rw [hzip]
              apply firstArgmax_of_spec hzj
              · intro k q hk hq
                exact argmaxIdx_lt ham k q.2 hk (zip_get?_snd hq)
              · intro k q hq
                exact argmaxIdx_le ham k q.2 (zip_get?_snd hq)

/-- Concrete environment whose json parser rejects every line. -/
def envParseFail : Env :=
  { parseJson := fun _ => Except.error "Expecting value: line 1 column 1 (char 0)"
    fileExists := fun _ => false
    loadModel := fun _ => Except.error "unreadable artifact"
    mkDummy := fun _ _ => stubModel
    extractRaw := fun _ _ => Except.error "decode failure" }

/-- Witness for C1: a concrete two-line input whose lines fail to parse still
gets exactly two responses, the first being the error object. -/
theorem claim_C1_witness :
    (runLoop envParseFail Analyzer.initState ["x", "y"]).1.length = 2 ∧
    (runLoop envParseFail Analyzer.initState ["x", "y"]).1 =
      JsonVal.obj [("error",
          JsonVal.str "Expecting value: line 1 column 1 (char 0)")] ::
        (runLoop envParseFail
          (processLine envParseFail Analyzer.initState "x").2 ["y"]).1 :=
  ⟨(claim_C1 envParseFail Analyzer.initState ["x", "y"]).1,
   (claim_C1 envParseFail Analyzer.initState ["x", "y"]).2
     Analyzer.initState "x" ["y"]
     "Expecting value: line 1 column 1 (char 0)" rfl⟩

/-- Raw librosa output used by the C2 witness environment. -/
def rawConcrete : RawFeatures :=
  { mfccMean := List.replicate 13 1
    mfccStd := List.replicate 13 2
    centroid := 3
    zcr := 4
    energy := 5 }

/-- Concrete environment whose feature pipeline succeeds with `rawConcrete`. -/
def envExtractOk : Env :=
  { parseJson := fun _ => Except.error "Expecting value"
    fileExists := fun _ => false
    loadModel := fun _ => Except.error "unreadable artifact"
    mkDummy := fun _ _ => stubModel
    extractRaw := fun _ _ => Except.ok rawConcrete }

/-- Witness for C2 at a concrete successful extraction. -/
theorem claim_C2_witness :
    extract_features envExtractOk Analyzer.initState JsonVal.null =
      { features := (rawConcrete.mfccMean ++ rawConcrete.mfccStd ++
          [rawConcrete.centroid, rawConcrete.zcr, rawConcrete.energy]) ++
            List.replicate 11 0
        mfcc := rawConcrete.mfccMean
        spectralCentroid := rawConcrete.centroid
        zeroCrossingRate := rawConcrete.zcr
        energy := rawConcrete.energy } :=
  (claim_C2 envExtractOk Analyzer.initState JsonVal.null).2.1 rawConcrete
    rfl rfl rfl

/-- C3 counterexample: with the configured label set `["happy"]` (no
`neutral`), the failure fallback produces two entries, so the mapping does not
contain exactly one entry per configured label. -/
theorem claim_C3_counterexample :
    (predict_emotion ["happy"] (Except.error "boom")).scores =
      [("happy", 0), ("neutral", 1)] ∧
    (predict_emotion ["happy"] (Except.error "boom")).scores.length ≠
      (["happy"] : List String).length := by
  constructor
  · rfl
  · decide

/-- Witness for C3 (amended) at the concrete label set
`["neutral", "happy"]`. -/
theorem claim_C3_witness :
    (predict_emotion ["neutral", "happy"] (Except.error "boom")).emotion =
      "neutral" ∧
    dictGet (predict_emotion ["neutral", "happy"]
      (Except.error "boom")).scores "happy" = some 0 ∧
    ((predict_emotion ["neutral", "happy"] (Except.error "boom")).scores.map
      Prod.fst = ["neutral", "happy"]) := by
  have h := claim_C3 ["neutral", "happy"] "boom" (by decide)
  refine ⟨h.1, h.2.2.2.1 "happy" (by decide) (by decide), ?_⟩
  have hk := h.2.2.2.2.1
  rwa [if_pos (by decide)] at hk

/-- C4 counterexample: with the configured label set `["sad"]` (no `neutral`),
the failure path produces two entries rather than exactly L = 1. -/
theorem claim_C4_counterexample :
    (predict_emotion ["sad"] (Except.error "shape mismatch")).scores =
      [("sad", 0), ("neutral", 1)] ∧
    (predict_emotion ["sad"] (Except.error "shape mismatch")).scores.length ≠
      (["sad"] : List String).length := by
  constructor
  · rfl
  · decide

/-- Witness for C4 (amended): a concrete success run has exactly L entries,
and a concrete failure run without a configured `neutral` has L+1. -/
theorem claim_C4_witness :
    ((∀ q ∈ (predict_emotion ["neutral", "happy"]
        (Except.ok [mkRat 1 2, mkRat 1 2])).scores, 0 ≤ q.2 ∧ q.2 ≤ 1) ∧
      (predict_emotion ["neutral", "happy"]
        (Except.ok [mkRat 1 2, mkRat 1 2])).scores.length =
        (["neutral", "happy"] : List String).length) ∧
    (predict_emotion ["sad", "happy"]
        (Except.error "worker failure")).scores.length =
      (if "neutral" ∈ (["sad", "happy"] : List String)
        then (["sad", "happy"] : List String).length
        else (["sad", "happy"] : List String).length + 1) := by
  have h1 := claim_C4 ["neutral", "happy"] (Except.ok [mkRat 1 2, mkRat 1 2])
    (by decide) (fun probs hp => by injection hp with hp2; subst hp2; decide)
  have h2 := claim_C4 ["sad", "happy"] (Except.error "worker failure")
    (by decide) (fun probs hp => by cases hp)
  exact ⟨⟨h1.1, h1.2.1 (PredictionResult.mk "neutral" (mkRat 1 2)
      [("neutral", mkRat 1 2), ("happy", mkRat 1 2)]) (by rfl)⟩,
    h2.2.2 "worker failure" rfl⟩

/-- Witness for C5 (amended) at the concrete empty config object. -/
def envInitEmpty : Env :=
  { parseJson := fun _ => Except.ok (JsonVal.obj
      [("action", JsonVal.str "init"), ("config", JsonVal.obj [])])
    fileExists := fun _ => false
    loadModel := fun _ => Except.error "unreadable artifact"
    mkDummy := fun _ _ => stubModel
    extractRaw := fun _ _ => Except.error "decode failure" }

/-- Witness for C5 (amended): the empty config object initializes without
raising, and the init command is answered with the status object. -/
theorem claim_C5_witness :
    (doInit envInitEmpty Analyzer.initState (JsonVal.obj [])).2 = none ∧
    (processLine envInitEmpty Analyzer.initState "ln").1 =
      JsonVal.obj [("status", JsonVal.str "initialized")] :=
  claim_C5 envInitEmpty Analyzer.initState "ln" []
    [("action", JsonVal.str "init"), ("config", JsonVal.obj [])]
    (fun v hv => by simp [lookupField] at hv)
    (fun v hv => by simp [lookupField] at hv)
    rfl rfl rfl

/-- Witness for C6 at a concrete two-label success run with distinct
probabilities. -/
theorem claim_C6_witness :
    dictGet (predict_emotion ["happy", "sad"]
        (Except.ok [mkRat 1 4, mkRat 3 4])).scores
      (predict_emotion ["happy", "sad"]
        (Except.ok [mkRat 1 4, mkRat 3 4])).emotion =
      some (predict_emotion ["happy", "sad"]
        (Except.ok [mkRat 1 4, mkRat 3 4])).confidence ∧
    firstArgmax (predict_emotion ["happy", "sad"]
        (Except.ok [mkRat 1 4, mkRat 3 4])).scores =
      some ((predict_emotion ["happy", "sad"]
          (Except.ok [mkRat 1 4, mkRat 3 4])).emotion,
        (predict_emotion ["happy", "sad"]
          (Except.ok [mkRat 1 4, mkRat 3 4])).confidence) :=
  claim_C6 ["happy", "sad"] (Except.ok [mkRat 1 4, mkRat 3 4]) (by decide)

/-- Concrete environment whose every input line parses to a well-formed
`analyze` request. -/
def envAnalyzeLine : Env :=
  { parseJson := fun _ => Except.ok (JsonVal.obj
      [("action", JsonVal.str "analyze"), ("audioPath", JsonVal.str "a.wav"),
       ("sessionId", JsonVal.str "s1"), ("timestamp", JsonVal.num 1)])
    fileExists := fun _ => false
    loadModel := fun _ => Except.error "unreadable artifact"
    mkDummy := fun _ _ => stubModel
    extractRaw := fun _ _ => Except.error "decode failure" }

/-- Witness for C7 at a concrete repeated analyze request. -/
theorem claim_C7_witness :
    (processLine envAnalyzeLine Analyzer.initState "ln").2 =
      Analyzer.initState ∧
    (runLoop envAnalyzeLine Analyzer.initState ["ln", "ln"]).1 =
      [(processLine envAnalyzeLine Analyzer.initState "ln").1,
       (processLine envAnalyzeLine Analyzer.initState "ln").1] ∧
    (∀ ap sid ts, analyze_audio envAnalyzeLine
        (processLine envAnalyzeLine Analyzer.initState "ln").2 ap sid ts =
      analyze_audio envAnalyzeLine Analyzer.initState ap sid ts) :=
  claim_C7 envAnalyzeLine Analyzer.initState "ln"
    [("action", JsonVal.str "analyze"), ("audioPath", JsonVal.str "a.wav"),
     ("sessionId", JsonVal.str "s1"), ("timestamp", JsonVal.num 1)]
    rfl rfl

/-- Witness for C10 at the concrete empty config object. -/
theorem claim_C10_witness :
    (doInit envParseFail Analyzer.initState (JsonVal.obj [])).2 = none ∧
    (doInit envParseFail Analyzer.initState (JsonVal.obj [])).1.model_path =
      JsonVal.str "./models/audio-emotion" ∧
    (doInit envParseFail Analyzer.initState
      (JsonVal.obj [])).1.model_type = JsonVal.str "fast" ∧
    (doInit envParseFail Analyzer.initState
      (JsonVal.obj [])).1.emotion_labels = defaultLabels :=
  claim_C10 envParseFail Analyzer.initState [] rfl rfl rfl
